import Mathlib

/-!
Verification development for the `foodstory_bill_importer` repository
(`db_manager.py`).  Strings are modelled as lists of Unicode code points
(`Str := List Nat`), which matches Python's `str` semantics (a sequence of
code points).  Each definition below is a shallow embedding of the
correspondingly named Python function.
-/

/-- A Python string, modelled as its list of Unicode code points. -/
abbrev Str := List Nat

/-- Code points of a Lean string literal, used to write concrete inputs. -/
def codes (s : String) : Str := s.data.map Char.toNat

/-- Model of Python's regex class `\s` (and of `str.strip`'s whitespace set):
ASCII whitespace, the C1 separators, NBSP and the Unicode space separators.
These are the whitespace code points of Python's `re` module for `str`
patterns. -/
def isSpaceC (n : Nat) : Bool :=
  decide ((9 ≤ n ∧ n ≤ 13) ∨ (28 ≤ n ∧ n ≤ 31) ∨ n = 32 ∨ n = 133 ∨ n = 160 ∨
    n = 0x1680 ∨ (0x2000 ≤ n ∧ n ≤ 0x200A) ∨ n = 0x2028 ∨ n = 0x2029 ∨
    n = 0x202F ∨ n = 0x205F ∨ n = 0x3000)

/-- Model of Python's regex class `\w` (word characters) over the character
repertoire this repository handles: ASCII alphanumerics, the underscore,
the Latin-1 letters (décomposable accents such as `Ö`/`ö`; `×` U+00D7 and
`÷` U+00F7 are excluded, as in Python), and the Thai block (letters, vowel
signs, tone marks and Thai digits; the baht sign U+0E3F is excluded). -/
def isWordChar (n : Nat) : Bool :=
  decide ((48 ≤ n ∧ n ≤ 57) ∨ (65 ≤ n ∧ n ≤ 90) ∨ (97 ≤ n ∧ n ≤ 122) ∨
    n = 95 ∨ (0xC0 ≤ n ∧ n ≤ 0xFF ∧ n ≠ 0xD7 ∧ n ≠ 0xF7) ∨
    (0xE01 ≤ n ∧ n ≤ 0xE5B ∧ n ≠ 0xE3F))

/-- Alphanumeric characters (Python `str.isalnum` over the same repertoire):
the word characters minus the underscore.  This is what the specification's
phrase "non-alphanumeric characters" denotes. -/
def isAlnumChar (n : Nat) : Bool :=
  decide ((48 ≤ n ∧ n ≤ 57) ∨ (65 ≤ n ∧ n ≤ 90) ∨ (97 ≤ n ∧ n ≤ 122) ∨
    (0xC0 ≤ n ∧ n ≤ 0xFF ∧ n ≠ 0xD7 ∧ n ≠ 0xF7) ∨
    (0xE01 ≤ n ∧ n ≤ 0xE5B ∧ n ≠ 0xE3F))

/-- Model of Python's `str.lower`, acting code-point-wise: ASCII `A`-`Z` and
the Latin-1 capitals `À`-`Þ` (except `×`) map 32 code points up; everything
else in the modelled repertoire (digits, Thai, punctuation) is fixed, as in
Python. -/
def toLowerN (n : Nat) : Nat :=
  if (65 ≤ n ∧ n ≤ 90) ∨ (0xC0 ≤ n ∧ n ≤ 0xDE ∧ n ≠ 0xD7) then n + 32 else n

/-- The combining marks carried by this model of NFKC: the combining
diaeresis U+0308 and the combining acute accent U+0301. -/
def isCombining (d : Nat) : Bool := decide (d = 0x308 ∨ d = 0x301)

/-- Canonical composition of a base letter with a following combining mark,
as performed by `unicodedata.normalize('NFKC', _)`: `o`/`O` + U+0308 give
`ö` (U+00F6) / `Ö` (U+00D6), and `o`/`O` + U+0301 give `ó` (U+00F3) /
`Ó` (U+00D3). -/
def composeBase (b d : Nat) : Option Nat :=
  if d = 0x308 then
    if b = 111 then some 246 else if b = 79 then some 214 else none
  else if d = 0x301 then
    if b = 111 then some 243 else if b = 79 then some 211 else none
  else none

/-- Model of `unicodedata.normalize('NFKC', s)`.  It agrees exactly with
NFKC on the `asciiThai` repertoire below, where NFKC is the identity, and it
models NFKC's canonical composition of a base letter followed by a combining
mark through the representative compositions of `composeBase`.  Real NFKC
composes every canonical combining sequence, so theorems that assert
idempotence of the normalizer quantify only over the exactly-modelled
`asciiThai` repertoire; the composition cases serve to refute idempotence,
exactly as the program's NFKC does on such inputs. -/
def nfkcModel : Str → Str
  | [] => []
  | [c] => [c]
  | c :: d :: rest =>
    match composeBase c d with
    | some e => e :: nfkcModel rest
    | none => c :: nfkcModel (d :: rest)

/-- The character repertoire on which `unicodedata.normalize('NFKC', _)` is
the identity (and `nfkcModel` is exact): ASCII, and the Thai block without
SARA AM — U+0E33 is the one Thai character NFKC rewrites, via its
compatibility decomposition to U+0E4D U+0E32. -/
def asciiThai (c : Nat) : Bool :=
  decide (c ≤ 0x7F ∨ (0xE00 ≤ c ∧ c ≤ 0xE7F ∧ c ≠ 0xE33))

/-- Boolean prefix test on code-point lists (Python `str.startswith`). -/
def isPre : Str → Str → Bool
  | [], _ => true
  | _ :: _, [] => false
  | a :: p, b :: l => decide (a = b) && isPre p l

/-- Boolean substring test (Python's `needle in haystack` on `str`). -/
def isSubstr (p : Str) : Str → Bool
  | [] => isPre p []
  | c :: t => isPre p (c :: t) || isSubstr p t

/-- The dot-retention test of `normalize_column_name` (db_manager.py line
24): the lowercased raw header contains `"inv.no"`, `"custom payment ref."`
or `"custompaymentref."` as a substring. -/
def dotPattern (raw : Str) : Bool :=
  let low := raw.map toLowerN
  isSubstr (codes "inv.no") low || isSubstr (codes "custom payment ref.") low ||
    isSubstr (codes "custompaymentref.") low

/-- Embedding of `normalize_column_name` (db_manager.py lines 12-29):
NFKC-normalize, delete all whitespace (`re.sub(r'\s+', '', _)`), then — if
the lowercased original header contains one of the dot patterns — delete
every character that is neither a word character nor a dot
(`re.sub(r'[^\w.]', '', _)`), otherwise delete every non-word character
(`re.sub(r'[^\w]', '', _)`); finally lowercase. -/
def normalize_column_name (raw : Str) : Str :=
  let n1 := (nfkcModel raw).filter (fun c => !isSpaceC c)
  let n2 := if dotPattern raw then n1.filter (fun c => isWordChar c || decide (c = 46))
            else n1.filter isWordChar
  n2.map toLowerN

/-- The Column Normalizer contract exactly as the specification and claim C3
word it: "(a) Unicode normalization, (b) stripping all whitespace, (c)
stripping all non-alphanumeric characters except retaining the dot character
when the header matches an invoice-number or custom-payment-reference
pattern, (d) lowercasing". -/
def normalize_column_name_claimC3 (raw : Str) : Str :=
  (((nfkcModel raw).filter (fun c => !isSpaceC c)).filter
    (fun c => isAlnumChar c || (decide (c = 46) && dotPattern raw))).map toLowerN

/-- The amended Column Normalizer contract: as claim C3, but step (c) keeps
the word characters (alphanumerics and the underscore) rather than the
alphanumerics alone. -/
def normalize_column_name_specWord (raw : Str) : Str :=
  (((nfkcModel raw).filter (fun c => !isSpaceC c)).filter
    (fun c => isWordChar c || (decide (c = 46) && dotPattern raw))).map toLowerN

/-! ### Time repair: `format_time_string_for_storage` (db_manager.py 176-230) -/

/-- A decimal digit code point (regex class `\d` on code points). -/
def isDigitN (n : Nat) : Bool := decide (48 ≤ n ∧ n ≤ 57)

/-- Python `f"{n:02d}"`: the decimal digits of `n`, left-padded with `0` to
width two. -/
def pad2 (n : Nat) : Str :=
  if n < 100 then [48 + n / 10, 48 + n % 10] else (Nat.toDigits 10 n).map Char.toNat

/-- The `f"{h:02d}:{m:02d}:{s:02d}"` rendering used throughout
`format_time_string_for_storage`. -/
def renderHMS (h m s : Nat) : Str := pad2 h ++ 58 :: pad2 m ++ 58 :: pad2 s

/-- Model of `re.match(r'(\d{1,2}):(\d{2}):(\d{2})', s)` (an anchored prefix
match; trailing input is allowed).  The regex's only choice point is the
one-or-two digit hour, and since `:` is not a digit the alternative is
determined by the second character. -/
def parseHMS : Str → Option (Nat × Nat × Nat)
  | a :: b :: rest =>
    if 48 ≤ a ∧ a ≤ 57 then
      if 48 ≤ b ∧ b ≤ 57 then
        match rest with
        | c :: m1 :: m2 :: d :: s1 :: s2 :: _ =>
          if c = 58 ∧ 48 ≤ m1 ∧ m1 ≤ 57 ∧ 48 ≤ m2 ∧ m2 ≤ 57 ∧ d = 58 ∧
              48 ≤ s1 ∧ s1 ≤ 57 ∧ 48 ≤ s2 ∧ s2 ≤ 57 then
            some (10 * (a - 48) + (b - 48), 10 * (m1 - 48) + (m2 - 48),
              10 * (s1 - 48) + (s2 - 48))
          else none
        | _ => none
      else if b = 58 then
        match rest with
        | m1 :: m2 :: d :: s1 :: s2 :: _ =>
          if 48 ≤ m1 ∧ m1 ≤ 57 ∧ 48 ≤ m2 ∧ m2 ≤ 57 ∧ d = 58 ∧
              48 ≤ s1 ∧ s1 ≤ 57 ∧ 48 ≤ s2 ∧ s2 ≤ 57 then
            some (a - 48, 10 * (m1 - 48) + (m2 - 48), 10 * (s1 - 48) + (s2 - 48))
          else none
        | _ => none
      else none
    else none
  | _ => none

/-- Model of `re.match(r'(\d{1,2}):(\d{2})', s)`. -/
def parseHM : Str → Option (Nat × Nat)
  | a :: b :: rest =>
    if 48 ≤ a ∧ a ≤ 57 then
      if 48 ≤ b ∧ b ≤ 57 then
        match rest with
        | c :: m1 :: m2 :: _ =>
          if c = 58 ∧ 48 ≤ m1 ∧ m1 ≤ 57 ∧ 48 ≤ m2 ∧ m2 ≤ 57 then
            some (10 * (a - 48) + (b - 48), 10 * (m1 - 48) + (m2 - 48))
          else none
        | _ => none
      else if b = 58 then
        match rest with
        | m1 :: m2 :: _ =>
          if 48 ≤ m1 ∧ m1 ≤ 57 ∧ 48 ≤ m2 ∧ m2 ≤ 57 then
            some (a - 48, 10 * (m1 - 48) + (m2 - 48))
          else none
        | _ => none
      else none
    else none
  | _ => none

/-- Greedy `\s*`. -/
def skipSpaces (s : Str) : Str := s.dropWhile isSpaceC

/-- Greedy `(\d+)`: the leading digits and the remainder. -/
def takeDigits (s : Str) : List Nat × Str := (s.takeWhile isDigitN, s.dropWhile isDigitN)

/-- Numeric value of a digit string (`int(...)` on the matched group). -/
def digitsVal (ds : List Nat) : Nat := ds.foldl (fun acc d => acc * 10 + (d - 48)) 0

/-- Model of matching `(\d+)\s*hour(?:s)?` at the current position.  The
character classes of consecutive regex pieces are disjoint, so greedy
matching without backtracking is exact. -/
def pHour (s : Str) : Option Nat :=
  match takeDigits s with
  | ([], _) => none
  | (ds, r1) => if isPre (codes "hour") (skipSpaces r1) then some (digitsVal ds) else none

/-- Model of matching `(\d+)\s*min(?:ute)?s?` at the current position. -/
def pMin (s : Str) : Option Nat :=
  match takeDigits s with
  | ([], _) => none
  | (ds, r1) => if isPre (codes "min") (skipSpaces r1) then some (digitsVal ds) else none

/-- Consume a literal if present (for the optional regex groups `(?:s)?`). -/
def dropLit (lit : Str) (s : Str) : Str :=
  if isPre lit s then s.drop lit.length else s

/-- Model of matching `(\d+)\s*hour(?:s)?\s*(\d+)\s*min(?:ute)?s?` at the
current position. -/
def pHourMin (s : Str) : Option (Nat × Nat) :=
  match takeDigits s with
  | ([], _) => none
  | (ds, r1) =>
    let r2 := skipSpaces r1
    if isPre (codes "hour") r2 then
      let r3 := dropLit [115] (r2.drop 4)
      match takeDigits (skipSpaces r3) with
      | ([], _) => none
      | (ds2, r4) =>
        if isPre (codes "min") (skipSpaces r4) then some (digitsVal ds, digitsVal ds2)
        else none
    else none

/-- Model of `re.search`: try the pattern at each start position, leftmost
first (a position past the end cannot match these patterns, which all
require at least one digit). -/
def searchStr {α : Type} (f : Str → Option α) : Str → Option α
  | [] => f []
  | c :: t =>
    match f (c :: t) with
    | some r => some r
    | none => searchStr f t

/-- Python `s.strip().lower()` as used at line 184. -/
def stripLower (s : Str) : Str :=
  ((((s.dropWhile isSpaceC).reverse.dropWhile isSpaceC).reverse).map toLowerN)

/-- Embedding of `format_time_string_for_storage` (db_manager.py 176-230).
The argument is `none` when the Python value is null/not a string
(`pd.isna(t_str) or not isinstance(t_str, str)`). -/
def format_time_string_for_storage (t : Option Str) : Str :=
  match t with
  | none => codes "00:00:00"
  | some raw =>
    let s := stripLower raw
    match parseHMS s with
    | some (h, m, sec) => renderHMS h m sec
    | none =>
      match parseHM s with
      | some (h, m) => renderHMS h m 0
      | none =>
        let total :=
          match searchStr pHourMin s with
          | some (h, m) => h * 3600 + m * 60
          | none =>
            let t1 := match searchStr pMin s with
              | some m => m * 60
              | none => 0
            match searchStr pHour s with
            | some h => h * 3600
            | none => t1
        if total > 0 then renderHMS (total / 3600) (total % 3600 / 60) (total % 60)
        else codes "00:00:00"

/-! ### Date repair: `parse_date_robust_and_format` (db_manager.py 301-323) -/

/-- A calendar date as produced by `pd.to_datetime`. -/
structure DateD where
  y : Nat
  m : Nat
  d : Nat
deriving DecidableEq

/-- Gregorian leap year. -/
def isLeap (y : Nat) : Bool := decide ((y % 4 = 0 ∧ y % 100 ≠ 0) ∨ y % 400 = 0)

/-- Days in a month, as validated by `pd.to_datetime`. -/
def daysInMonth (y m : Nat) : Nat :=
  if m = 1 ∨ m = 3 ∨ m = 5 ∨ m = 7 ∨ m = 8 ∨ m = 10 ∨ m = 12 then 31
  else if m = 4 ∨ m = 6 ∨ m = 9 ∨ m = 11 then 30
  else if isLeap y then 29 else 28

/-- Day/month field of a `strptime` format: one or two digits whose value
lies in `[lo, hi]` (the compiled regex prefers the two-digit reading; the
separators that follow are never digits, so this is deterministic). -/
def parseField2 (lo hi : Nat) : Str → Option (Nat × Str)
  | a :: b :: r =>
    if 48 ≤ a ∧ a ≤ 57 ∧ 48 ≤ b ∧ b ≤ 57 ∧ lo ≤ 10 * (a - 48) + (b - 48) ∧
        10 * (a - 48) + (b - 48) ≤ hi then
      some (10 * (a - 48) + (b - 48), r)
    else if 48 ≤ a ∧ a ≤ 57 ∧ lo ≤ a - 48 ∧ a - 48 ≤ hi then some (a - 48, b :: r)
    else none
  | [a] => if 48 ≤ a ∧ a ≤ 57 ∧ lo ≤ a - 48 ∧ a - 48 ≤ hi then some (a - 48, []) else none
  | [] => none

/-- The `%Y` field of `strptime`: exactly four digits. -/
def parseYear4 : Str → Option (Nat × Str)
  | a :: b :: c :: d :: r =>
    if 48 ≤ a ∧ a ≤ 57 ∧ 48 ≤ b ∧ b ≤ 57 ∧ 48 ≤ c ∧ c ≤ 57 ∧ 48 ≤ d ∧ d ≤ 57 then
      some (1000 * (a - 48) + 100 * (b - 48) + 10 * (c - 48) + (d - 48), r)
    else none
  | _ => none

/-- A literal separator character. -/
def parseSep (ch : Nat) : Str → Option Str
  | c :: r => if c = ch then some r else none
  | [] => none

/-- Calendar validity, as enforced by `pd.to_datetime` (an out-of-range day
such as 31/02 yields `NaT` under `errors='coerce'`). -/
def validDate (y m d : Nat) : Bool := decide (1 ≤ d) && decide (d ≤ daysInMonth y m)

/-- `pd.to_datetime(s, format='%d/%m/%Y', errors='coerce')`: a full match of
day `/` month `/` four-digit year, then calendar validation. -/
def fmtDMY (s : Str) : Option DateD :=
  match parseField2 1 31 s with
  | none => none
  | some (d, r1) =>
    match parseSep 47 r1 with
    | none => none
    | some r2 =>
      match parseField2 1 12 r2 with
      | none => none
      | some (m, r3) =>
        match parseSep 47 r3 with
        | none => none
        | some r4 =>
          match parseYear4 r4 with
          | some (y, []) => if validDate y m d then some ⟨y, m, d⟩ else none
          | _ => none

/-- `pd.to_datetime(s, format='%Y-%m-%d', errors='coerce')`. -/
def fmtYMD (s : Str) : Option DateD :=
  match parseYear4 s with
  | none => none
  | some (y, r1) =>
    match parseSep 45 r1 with
    | none => none
    | some r2 =>
      match parseField2 1 12 r2 with
      | none => none
      | some (m, r3) =>
        match parseSep 45 r3 with
        | none => none
        | some r4 =>
          match parseField2 1 31 r4 with
          | some (d, []) => if validDate y m d then some ⟨y, m, d⟩ else none
          | _ => none

/-- `pd.to_datetime(s, format='%m/%d/%Y', errors='coerce')`. -/
def fmtMDY (s : Str) : Option DateD :=
  match parseField2 1 12 s with
  | none => none
  | some (m, r1) =>
    match parseSep 47 r1 with
    | none => none
    | some r2 =>
      match parseField2 1 31 r2 with
      | none => none
      | some (d, r3) =>
        match parseSep 47 r3 with
        | none => none
        | some r4 =>
          match parseYear4 r4 with
          | some (y, []) => if validDate y m d then some ⟨y, m, d⟩ else none
          | _ => none

/-- Python `f"{n:04d}"`-style rendering of `strftime('%Y')`. -/
def pad4 (n : Nat) : Str :=
  if n < 10000 then [48 + n / 1000, 48 + n / 100 % 10, 48 + n / 10 % 10, 48 + n % 10]
  else (Nat.toDigits 10 n).map Char.toNat

/-- `dt_obj.strftime('%Y-%m-%d')`. -/
def renderDate (dt : DateD) : Str := pad4 dt.y ++ 45 :: pad2 dt.m ++ 45 :: pad2 dt.d

/-- Embedding of `parse_date_robust_and_format` (db_manager.py 301-323).
The explicit formats `%d/%m/%Y`, `%Y-%m-%d`, `%m/%d/%Y` are tried in order
(the loop breaks on the first non-NaT result); `generic` is the final
best-effort `pd.to_datetime(date_str, errors='coerce')` call, an external
library routine taken as a parameter; `none` input models a null or
non-string cell and yields the empty-string sentinel. -/
def parse_date_robust_and_format (generic : Str → Option DateD) : Option Str → Str
  | none => []
  | some s =>
    match fmtDMY s with
    | some dt => renderDate dt
    | none =>
      match fmtYMD s with
      | some dt => renderDate dt
      | none =>
        match fmtMDY s with
        | some dt => renderDate dt
        | none =>
          match generic s with
          | some dt => renderDate dt
          | none => []

/-! ### The importer: `insert_data_from_df` (db_manager.py 233-367) -/

/-- A pandas cell value: a float, an integer, a string, or a missing value
(`np.nan` / `None`).  Floats are modelled as exact rationals. -/
inductive Val where
  | real (q : ℚ)
  | int (z : ℤ)
  | text (s : Str)
  | na
deriving DecidableEq

/-- The SQL column types of `get_sql_type`. -/
inductive SqlTy where
  | real
  | integer
  | text
deriving DecidableEq

/-- The `numeric_cols` list of `get_sql_type` (db_manager.py 107-114). -/
def numeric_cols : List Str :=
  [codes "summary_price", codes "discount_by_item", codes "subtotal_bill_discount",
   codes "subtotal_summary_price_minus_discount_by_item", codes "service_charge",
   codes "non_vat", codes "ex_vat", codes "before_vat_subtotal_plus_service_charge",
   codes "vat", codes "voucher_amount_desc", codes "voucher_discount", codes "rounding_amt",
   codes "delivery_fee", codes "total_final_bill", codes "tips", codes "quantity",
   codes "price_per_unit", codes "discount_by_item_percent", codes "discounted_price",
   codes "refund"]

/-- The `integer_cols` list of `get_sql_type` (db_manager.py 115). -/
def integer_cols : List Str := [codes "seat_amount"]

/-- Embedding of `get_sql_type` (db_manager.py 103-125). -/
def get_sql_type (c : Str) : SqlTy :=
  if c ∈ numeric_cols then SqlTy.real
  else if c ∈ integer_cols then SqlTy.integer
  else SqlTy.text

/-- Embedding of `BILLS_COLUMN_MAPPING` (db_manager.py 32-68): expected CSV
header → database column name. -/
def BILLS_COLUMN_MAPPING : List (Str × Str) :=
  [(codes "Payment Date", codes "payment_date"),
   (codes "Payment Time", codes "payment_time"),
   (codes "Time", codes "time_col"),
   (codes "Receipt Number", codes "receipt_number"),
   (codes "POS ID", codes "pos_id"),
   (codes "INV. No", codes "inv_no"),
   (codes "Summary Price", codes "summary_price"),
   (codes "Discount By Item", codes "discount_by_item"),
   (codes "Subtotal Bill Discount", codes "subtotal_bill_discount"),
   (codes "Subtotal Summary Price - Discount By Item", codes "subtotal_summary_price_minus_discount_by_item"),
   (codes "Service charge", codes "service_charge"),
   (codes "Non VAT", codes "non_vat"),
   (codes "Ex. VAT", codes "ex_vat"),
   (codes "Before Vat Subtotal + Service charge", codes "before_vat_subtotal_plus_service_charge"),
   (codes "VAT", codes "vat"),
   (codes "Voucher Amount มูลค่า Voucher มีโอกาสที่จะมากกว่ายอดรวมทั้งบิล ส่วนลดที่ใช้ได้สูงสุดจึงเป็นยอดรวมของบิล", codes "voucher_amount_desc"),
   (codes "Voucher Discount", codes "voucher_discount"),
   (codes "Rouding amount", codes "rounding_amt"),
   (codes "Delivery Fee", codes "delivery_fee"),
   (codes "Total (Before Vat + VAT + Rouding amount) - Non-VAT amount", codes "total_final_bill"),
   (codes "Tips", codes "tips"),
   (codes "Refund", codes "refund"),
   (codes "Order Type", codes "order_type"),
   (codes "Drawer ID", codes "drawer_id"),
   (codes "Payment Type", codes "payment_type"),
   (codes "Custom Payment Ref.", codes "custom_payment_ref"),
   (codes "Channel", codes "channel"),
   (codes "Table", codes "table_num"),
   (codes "Seat Amount", codes "seat_amount"),
   (codes "Customer Name", codes "customer_name"),
   (codes "Remark", codes "remark"),
   (codes "Promotion Code", codes "promotion_code"),
   (codes "Bill open by", codes "bill_open_by"),
   (codes "Bill close by", codes "bill_close_by"),
   (codes "Branch", codes "branch")]

/-- An uploaded dataset: the CSV header row and the data rows (each row
aligned with the headers). -/
structure Df where
  headers : List Str
  rows : List (List Val)

/-- The lookup through `normalized_df_columns_map` (db_manager.py 244-255):
the dict comprehension `{normalize_column_name(col): col for col in
df.columns}` keeps the last column for each normalized name, so the lookup
returns the last uploaded header whose normalized form equals the
normalized expected header. -/
def findHeader (headers : List Str) (key : Str) : Option Str :=
  headers.reverse.find? (fun h => decide (normalize_column_name h = normalize_column_name key))

/-- `df[original_csv_col_name]`: the cell of each row under a header. -/
def getCol (df : Df) (h : Str) : List Val :=
  match df.headers.findIdx? (fun x => decide (x = h)) with
  | some i => df.rows.map (fun r => r.getD i Val.na)
  | none => df.rows.map (fun _ => Val.na)

/-- The per-type default used for a missing column (db_manager.py 260-269):
`''` for `receipt_number`/`menu_name`, `0.0` for REAL, `0` for INTEGER, and
`np.nan` for every other (TEXT) column. -/
def defaultVal (dbCol : Str) : Val :=
  if dbCol = codes "receipt_number" ∨ dbCol = codes "menu_name" then Val.text []
  else match get_sql_type dbCol with
  | SqlTy.real => Val.real 0
  | SqlTy.integer => Val.int 0
  | SqlTy.text => Val.na

/-- Column assembly for one mapping entry (db_manager.py 253-269): copy the
matching uploaded column, or synthesize a constant default column. -/
def buildCol (df : Df) (key dbCol : Str) : List Val :=
  match findHeader df.headers key with
  | some h => getCol df h
  | none => List.replicate df.rows.length (defaultVal dbCol)

/-- Fraction digits of `a / b` (with `a < b`), up to `fuel` places, trailing
zeros omitted — the shape `str(float)` prints for decimally-representable
values.  (Binary floats are modelled as exact rationals, so this rendering
is a model; no claim exercises it.) -/
def fracDigitsAux : Nat → Nat → Nat → List Nat
  | 0, _, _ => []
  | _, _, 0 => []
  | fuel + 1, a, b => if a = 0 then [] else (48 + a * 10 / b) :: fracDigitsAux fuel (a * 10 % b) b

/-- Decimal digits of a natural number. -/
def natStr (n : Nat) : Str := (Nat.toDigits 10 n).map Char.toNat

/-- Decimal rendering of an integer. -/
def intStr (z : ℤ) : Str := if z < 0 then 45 :: natStr z.natAbs else natStr z.natAbs

/-- Model of Python `str(float)`. -/
def ratToStr (q : ℚ) : Str :=
  let sign : Str := if q < 0 then [45] else []
  let a := q.num.natAbs
  let b := q.den
  if b = 1 then sign ++ natStr a ++ codes ".0"
  else sign ++ natStr (a / b) ++ 46 :: fracDigitsAux 30 (a % b) b

/-- Unsigned decimal literal: `digits`, `digits.digits`, `.digits` or
`digits.` (the grammar `pd.to_numeric` accepts for plain decimals;
exponent forms are not modelled — no claim exercises them). -/
def parseUnsignedQ (s : Str) : Option ℚ :=
  match takeDigits s with
  | (ip, r) =>
    match r with
    | [] => if ip = [] then none else some (digitsVal ip)
    | 46 :: r2 =>
      match takeDigits r2 with
      | (fp, r3) =>
        if r3 = [] ∧ (ip ≠ [] ∨ fp ≠ []) then
          some ((digitsVal ip : ℚ) + (digitsVal fp : ℚ) / ((10 : ℚ) ^ fp.length))
        else none
    | _ => none

/-- Model of `pd.to_numeric(value, errors='coerce')` on a string cell:
optional surrounding whitespace, optional sign, decimal literal; anything
else coerces to NaN (`none`). -/
def parseNumeric (s : Str) : Option ℚ :=
  let t := ((s.dropWhile isSpaceC).reverse.dropWhile isSpaceC).reverse
  match t with
  | 45 :: r => (parseUnsignedQ r).map (fun q => -q)
  | 43 :: r => parseUnsignedQ r
  | _ => parseUnsignedQ t

/-- `pd.to_numeric(value, errors='coerce')` on an arbitrary cell. -/
def toNumericVal : Val → Option ℚ
  | Val.real q => some q
  | Val.int z => some (z : ℚ)
  | Val.text s => parseNumeric s
  | Val.na => none

/-- `.astype(int)` truncates toward zero. -/
def ratTrunc (q : ℚ) : ℤ := q.num.tdiv q.den

/-- Model of `.astype(str)` on one cell: crucially, `str(np.nan)` is the
three-character string `"nan"`, not the empty string. -/
def astypeStr : Val → Str
  | Val.text s => s
  | Val.na => codes "nan"
  | Val.int z => intStr z
  | Val.real q => ratToStr q

/-- The per-type cleaning pass (db_manager.py 286-297): REAL columns get
`pd.to_numeric(...).fillna(0.0)`; INTEGER columns additionally
`.astype(int)`; TEXT columns get `.astype(str).fillna('')` — and since
`.astype(str)` leaves no NaN behind (NaN becomes the string `"nan"`), the
trailing `.fillna('')` never fires. -/
def coerceColumn (dbCol : Str) (col : List Val) : List Val :=
  match get_sql_type dbCol with
  | SqlTy.real => col.map (fun v => Val.real ((toNumericVal v).getD 0))
  | SqlTy.integer => col.map (fun v => Val.int (ratTrunc ((toNumericVal v).getD 0)))
  | SqlTy.text => col.map (fun v => Val.text (astypeStr v))

/-- `parse_date_robust_and_format` applied to a cell (db_manager.py 323):
non-string cells take the `pd.isna`/`isinstance` path. -/
def dateRepairVal (generic : Str → Option DateD) (v : Val) : Val :=
  Val.text (parse_date_robust_and_format generic
    (match v with | Val.text s => some s | _ => none))

/-- `format_time_string_for_storage` applied to a cell (db_manager.py 327). -/
def timeRepairVal (v : Val) : Val :=
  Val.text (format_time_string_for_storage
    (match v with | Val.text s => some s | _ => none))

/-- The transformation pipeline of `insert_data_from_df` (db_manager.py
244-332): assemble each mapped column (copy or default), coerce every
column by its SQL type, then repair the `payment_date` and `payment_time`
columns.  The code's two "ensure presence" blocks (lines 272-282 and
336-344) and the missing-`payment_time` branch (line 329) are no-ops here:
the assembly loop already produces every mapped column exactly once. -/
def transformColumns (generic : Str → Option DateD) (df : Df)
    (mapping : List (Str × Str)) : List (Str × List Val) :=
  let assembled := mapping.map (fun kv => (kv.2, buildCol df kv.1 kv.2))
  let coerced := assembled.map (fun cc => (cc.1, coerceColumn cc.1 cc.2))
  coerced.map (fun cc =>
    if cc.1 = codes "payment_date" then (cc.1, cc.2.map (dateRepairVal generic))
    else if cc.1 = codes "payment_time" then (cc.1, cc.2.map timeRepairVal)
    else cc)

/-- `final_df_to_insert[db_columns_ordered].values.tolist()` (db_manager.py
347): the transformed data as rows, in mapping order. -/
def transformedRows (generic : Str → Option DateD) (df : Df)
    (mapping : List (Str × Str)) : List (List Val) :=
  let cols := transformColumns generic df mapping
  (List.range df.rows.length).map (fun i => cols.map (fun cc => cc.2.getD i Val.na))

/-- Embedding of `insert_data_from_df` (db_manager.py 233-367).  The stored
table is the row list `db`.  `transformOk` models "no exception was raised
while reading/transforming" and `sqliteOk` models "the `executemany` +
`commit` succeeded"; in either failure case the function is left via the
`except` clauses: it returns `False` and the connection is closed without
`commit`, so the table is unchanged.  On success the single transaction
appends every transformed row. -/
def insert_data_from_df (generic : Str → Option DateD) (transformOk sqliteOk : Bool)
    (df : Df) (mapping : List (Str × Str)) (db : List (List Val)) :
    List (List Val) × Bool :=
  if transformOk = false then (db, false)
  else if sqliteOk = false then (db, false)
  else (db ++ transformedRows generic df mapping, true)

/-! ### Basket builder: `get_basket_data` (db_manager.py 610-646) -/

/-- Embedding of `get_basket_data`.  The argument `details` is the cleaned
`(receipt_number, menu_name)` line-item list produced by
`get_bill_details_for_analysis`; `excl` is `exclude_items`.  The code drops
excluded menu names, groups by receipt, reduces each group to its set of
distinct menu names (`list(set(x))`), and one-hot encodes membership; the
result here is each receipt paired with its distinct-item list, whose
membership is exactly the 0/1 row of the encoded matrix. -/
def get_basket_data (details : List (Str × Str)) (excl : List Str) :
    List (Str × List Str) :=
  let filtered := details.filter (fun p => !decide (p.2 ∈ excl))
  ((filtered.map Prod.fst).dedup).map
    (fun r => (r, ((filtered.filter (fun p => decide (p.1 = r))).map Prod.snd).dedup))


/-- A bills upload with a single data row whose only column is
`Receipt Number`: every other mapped column, `Channel` among them, is
missing and must be synthesized from defaults. -/
def bills_df_missing_channel : Df :=
  ⟨[codes "Receipt Number"], [[Val.text (codes "R1")]]⟩

/-! ## Helper lemmas -/

theorem toLowerN_idem (n : Nat) : toLowerN (toLowerN n) = toLowerN n := by
  unfold toLowerN
  split_ifs <;> omega

theorem toLowerN_inv {n m : Nat} (h : toLowerN n = m) :
    n = m ∨ (n + 32 = m ∧ ((65 ≤ n ∧ n ≤ 90) ∨ (0xC0 ≤ n ∧ n ≤ 0xDE ∧ n ≠ 0xD7))) := by
  unfold toLowerN at h
  split_ifs at h <;> omega

theorem isWordChar_toLowerN {n : Nat} (h : isWordChar n = true) :
    isWordChar (toLowerN n) = true := by
  simp only [isWordChar, decide_eq_true_eq] at h ⊢
  unfold toLowerN
  split_ifs <;> omega

theorem isWordChar_not_space {n : Nat} (h : isWordChar n = true) : isSpaceC n = false := by
  simp only [isWordChar, decide_eq_true_eq] at h
  simp only [isSpaceC, decide_eq_false_iff_not]
  omega

theorem keepDot_toLowerN {n : Nat} (h : (isWordChar n || decide (n = 46)) = true) :
    (isWordChar (toLowerN n) || decide (toLowerN n = 46)) = true := by
  have h' : isWordChar n = true ∨ n = 46 := by simpa using h
  rcases h' with hw | hd
  · simp [isWordChar_toLowerN hw]
  · subst hd
    decide

theorem keepDot_not_space {n : Nat} (h : (isWordChar n || decide (n = 46)) = true) :
    isSpaceC n = false := by
  have h' : isWordChar n = true ∨ n = 46 := by simpa using h
  rcases h' with hw | hd
  · exact isWordChar_not_space hw
  · subst hd
    decide

theorem keepDot_ne_comb {n : Nat} (h : (isWordChar n || decide (n = 46)) = true) :
    isCombining (toLowerN n) = false := by
  have h' : isWordChar n = true ∨ n = 46 := by simpa using h
  simp only [isWordChar, decide_eq_true_eq] at h'
  simp only [isCombining, decide_eq_false_iff_not]
  unfold toLowerN
  split_ifs <;> omega

theorem dropWhile_eq_self_of {p : Nat → Bool} {l : Str} (h : ∀ c ∈ l, p c = false) :
    l.dropWhile p = l := by
  cases l with
  | nil => rfl
  | cons a t => simp [List.dropWhile_cons, h a (List.mem_cons_self a t)]

theorem stripLower_eq_self {l : Str} (h : ∀ c ∈ l, isSpaceC c = false ∧ toLowerN c = c) :
    stripLower l = l := by
  unfold stripLower
  rw [dropWhile_eq_self_of (fun c hc => (h c hc).1)]
  rw [dropWhile_eq_self_of (fun c hc => (h c (List.mem_reverse.mp hc)).1)]
  rw [List.reverse_reverse]
  rw [List.map_congr_left (fun c hc => (h c hc).2)]
  exact List.map_id l

theorem isPre_iff : ∀ (p l : Str), isPre p l = true ↔ ∃ r, p ++ r = l := by
  intro p
  induction p with
  | nil => intro l; simp [isPre]
  | cons a p ih =>
    intro l
    cases l with
    | nil => simp [isPre]
    | cons b t =>
      simp only [isPre, Bool.and_eq_true, decide_eq_true_eq, ih t]
      constructor
      · rintro ⟨hab, r, hr⟩
        exact ⟨r, by simp [hab, hr]⟩
      · rintro ⟨r, hr⟩
        simp only [List.cons_append, List.cons.injEq] at hr
        exact ⟨hr.1, r, hr.2⟩

theorem isSubstr_iff : ∀ (l p : Str), isSubstr p l = true ↔ ∃ a b, a ++ p ++ b = l := by
  intro l
  induction l with
  | nil =>
    intro p
    simp only [isSubstr, isPre_iff]
    constructor
    · rintro ⟨r, hr⟩
      exact ⟨[], r, by simpa using hr⟩
    · rintro ⟨a, b, h⟩
      have h' : a = [] ∧ p = [] ∧ b = [] := by simpa [List.append_assoc] using h
      exact ⟨[], by simp [h'.2.1]⟩
  | cons c t ih =>
    intro p
    simp only [isSubstr, Bool.or_eq_true, isPre_iff, ih]
    constructor
    · rintro (⟨r, hr⟩ | ⟨a, b, h⟩)
      · exact ⟨[], r, by simpa using hr⟩
      · exact ⟨c :: a, b, by simp [h]⟩
    · rintro ⟨a, b, h⟩
      cases a with
      | nil => exact Or.inl ⟨b, by simpa using h⟩
      | cons x a' =>
        simp only [List.cons_append, List.cons.injEq] at h
        exact Or.inr ⟨a', b, h.2⟩

theorem composeBase_eq_none {b d : Nat} (hd : isCombining d = false) :
    composeBase b d = none := by
  simp only [isCombining, decide_eq_false_iff_not] at hd
  unfold composeBase
  rw [if_neg (fun hc => hd (Or.inl hc)), if_neg (fun hc => hd (Or.inr hc))]

theorem nfkc_id : ∀ l : Str, (∀ c ∈ l, isCombining c = false) → nfkcModel l = l
  | [], _ => rfl
  | [_], _ => rfl
  | c :: d :: rest, h => by
    have hd : isCombining d = false := h d (by simp)
    have h' : ∀ x ∈ d :: rest, isCombining x = false :=
      fun x hx => h x (List.mem_cons_of_mem c hx)
    unfold nfkcModel
    rw [composeBase_eq_none hd]
    show c :: nfkcModel (d :: rest) = c :: d :: rest
    rw [nfkc_id (d :: rest) h']

theorem map_toLowerN_idem (l : Str) : (l.map toLowerN).map toLowerN = l.map toLowerN := by
  rw [List.map_map]
  exact List.map_congr_left (fun a _ => toLowerN_idem a)

theorem patChar_case {c t : Nat} (ht : toLowerN c = t)
    (hok : t = 32 ∨ t = 46 ∨ (97 ≤ t ∧ t ≤ 122)) :
    (t = 32 ∧ c = 32) ∨
    (t ≠ 32 ∧ isSpaceC c = false ∧ isSpaceC t = false ∧
      (isWordChar c || decide (c = 46)) = true) := by
  rcases toLowerN_inv ht with h1 | ⟨h1, h2⟩ <;>
    simp only [isSpaceC, isWordChar, Bool.or_eq_true, decide_eq_true_eq,
      decide_eq_false_iff_not] <;>
    omega

theorem patRun (w : Str)
    (h : ∀ t ∈ w.map toLowerN, t = 32 ∨ t = 46 ∨ (97 ≤ t ∧ t ≤ 122)) :
    ((w.filter (fun c => !isSpaceC c)).filter (fun c => isWordChar c || decide (c = 46)) =
      w.filter (fun c => !isSpaceC c)) ∧
    ((w.filter (fun c => !isSpaceC c)).map toLowerN =
      (w.map toLowerN).filter (fun c => !isSpaceC c)) := by
  induction w with
  | nil => simp
  | cons c w ih =>
    have hc := h (toLowerN c) (by simp)
    have hw := ih (fun t ht => h t (by simp only [List.map_cons, List.mem_cons]; exact Or.inr ht))
    rcases patChar_case rfl hc with ⟨h32, hc32⟩ | ⟨hne, hnsp, htns, hkeep⟩
    · subst hc32
      have hsp : isSpaceC 32 = true := by decide
      simpa [List.filter_cons, List.map_cons, hsp] using hw
    · constructor
      · simp [List.filter_cons, hnsp, hkeep, hw.1]
      · simp [List.filter_cons, List.map_cons, hnsp, htns, hw.2]

theorem pat_preserved {s p : Str}
    (hp : ∀ t ∈ p, t = 32 ∨ t = 46 ∨ (97 ≤ t ∧ t ≤ 122))
    (hinf : isSubstr p (s.map toLowerN) = true) :
    isSubstr (p.filter (fun c => !isSpaceC c))
      (((s.filter (fun c => !isSpaceC c)).filter
        (fun c => isWordChar c || decide (c = 46))).map toLowerN) = true := by
  rw [isSubstr_iff] at hinf ⊢
  obtain ⟨a, b, hab⟩ := hinf
  have hs : s.map toLowerN = a ++ (p ++ b) := by rw [← hab, List.append_assoc]
  obtain ⟨sa, rest, hs1, hma, hrest⟩ := List.map_eq_append_iff.mp hs
  obtain ⟨w, sb, hs2, hmw, hmb⟩ := List.map_eq_append_iff.mp hrest
  have hrun := patRun w (by rw [hmw]; exact hp)
  refine ⟨((sa.filter (fun c => !isSpaceC c)).filter
      (fun c => isWordChar c || decide (c = 46))).map toLowerN,
    ((sb.filter (fun c => !isSpaceC c)).filter
      (fun c => isWordChar c || decide (c = 46))).map toLowerN, ?_⟩
  rw [hs1, hs2]
  simp only [List.filter_append, List.map_append, hrun.1]
  rw [hrun.2, hmw, List.append_assoc]

theorem normalize_column_name_eq (raw : Str) :
    normalize_column_name raw =
      (if dotPattern raw then
        ((nfkcModel raw).filter (fun c => !isSpaceC c)).filter
          (fun c => isWordChar c || decide (c = 46))
      else ((nfkcModel raw).filter (fun c => !isSpaceC c)).filter isWordChar).map toLowerN :=
  rfl

theorem normalize_mem_keep {s : Str} {c : Nat} (hc : c ∈ normalize_column_name s) :
    ∃ c₀, (isWordChar c₀ || decide (c₀ = 46)) = true ∧ toLowerN c₀ = c := by
  rw [normalize_column_name_eq] at hc
  cases hd : dotPattern s with
  | false =>
    rw [hd] at hc
    simp only [Bool.false_eq_true, if_false, List.mem_map, List.mem_filter] at hc
    obtain ⟨c₀, ⟨_, hw⟩, hl⟩ := hc
    exact ⟨c₀, by simp [hw], hl⟩
  | true =>
    rw [hd] at hc
    simp only [if_true, List.mem_map, List.mem_filter] at hc
    obtain ⟨c₀, ⟨_, hw⟩, hl⟩ := hc
    exact ⟨c₀, hw, hl⟩

theorem normalize_mem_word {s : Str} (hd : dotPattern s = false) {c : Nat}
    (hc : c ∈ normalize_column_name s) :
    ∃ c₀, isWordChar c₀ = true ∧ toLowerN c₀ = c := by
  rw [normalize_column_name_eq, hd] at hc
  simp only [Bool.false_eq_true, if_false, List.mem_map, List.mem_filter] at hc
  obtain ⟨c₀, ⟨_, hw⟩, hl⟩ := hc
  exact ⟨c₀, hw, hl⟩

theorem normalize_no_comb {s : Str} :
    ∀ c ∈ normalize_column_name s, isCombining c = false := by
  intro c hc
  obtain ⟨c₀, hk, hl⟩ := normalize_mem_keep hc
  rw [← hl]
  exact keepDot_ne_comb hk

theorem normalize_not_space {s : Str} {c : Nat} (hc : c ∈ normalize_column_name s) :
    isSpaceC c = false := by
  obtain ⟨c₀, hk, hl⟩ := normalize_mem_keep hc
  rw [← hl]
  exact keepDot_not_space (keepDot_toLowerN hk)

theorem normalize_keep {s : Str} {c : Nat} (hc : c ∈ normalize_column_name s) :
    (isWordChar c || decide (c = 46)) = true := by
  obtain ⟨c₀, hk, hl⟩ := normalize_mem_keep hc
  rw [← hl]
  exact keepDot_toLowerN hk

theorem normalize_map_lower (s : Str) :
    (normalize_column_name s).map toLowerN = normalize_column_name s := by
  rw [normalize_column_name_eq]
  exact map_toLowerN_idem _

theorem substr_mem {p l : Str} {x : Nat} (hx : x ∈ p) (h : isSubstr p l = true) : x ∈ l := by
  rw [isSubstr_iff] at h
  obtain ⟨a, b, hab⟩ := h
  rw [← hab]
  simp [hx]

theorem dotPattern_normalize {s : Str} (h308 : ∀ c ∈ s, isCombining c = false)
    (hd : dotPattern s = true) :
    dotPattern (normalize_column_name s) = true := by
  have hnf : nfkcModel s = s := nfkc_id s h308
  have hnorm : normalize_column_name s =
      ((s.filter (fun c => !isSpaceC c)).filter
        (fun c => isWordChar c || decide (c = 46))).map toLowerN := by
    rw [normalize_column_name_eq, hd, hnf]
    simp
  unfold dotPattern at hd ⊢
  rw [normalize_map_lower]
  simp only [Bool.or_eq_true] at hd
  simp only [Bool.or_eq_true]
  rcases hd with (h1 | h2) | h3
  · have hpre := pat_preserved (p := codes "inv.no") (by decide) h1
    have hfp : (codes "inv.no").filter (fun c => !isSpaceC c) = codes "inv.no" := by decide
    rw [hfp] at hpre
    rw [hnorm]
    exact Or.inl (Or.inl hpre)
  · have hpre := pat_preserved (p := codes "custom payment ref.") (by decide) h2
    have hfp : (codes "custom payment ref.").filter (fun c => !isSpaceC c) =
        codes "custompaymentref." := by decide
    rw [hfp] at hpre
    rw [hnorm]
    exact Or.inr hpre
  · have hpre := pat_preserved (p := codes "custompaymentref.") (by decide) h3
    have hfp : (codes "custompaymentref.").filter (fun c => !isSpaceC c) =
        codes "custompaymentref." := by decide
    rw [hfp] at hpre
    rw [hnorm]
    exact Or.inr hpre

theorem normalize_idem_of_no_comb {s : Str} (h308 : ∀ c ∈ s, isCombining c = false) :
    normalize_column_name (normalize_column_name s) = normalize_column_name s := by
  have hnfo : nfkcModel (normalize_column_name s) = normalize_column_name s :=
    nfkc_id _ normalize_no_comb
  have hns : (normalize_column_name s).filter (fun c => !isSpaceC c) =
      normalize_column_name s :=
    List.filter_eq_self.mpr (fun c hc => by simp [normalize_not_space hc])
  cases hd : dotPattern s with
  | false =>
    have hword : ∀ c ∈ normalize_column_name s, isWordChar c = true := by
      intro c hc
      obtain ⟨c₀, hw, hl⟩ := normalize_mem_word hd hc
      rw [← hl]
      exact isWordChar_toLowerN hw
    have h46 : (46 : Nat) ∉ normalize_column_name s := by
      intro h46
      exact absurd (hword 46 h46) (by decide)
    have hdo : dotPattern (normalize_column_name s) = false := by
      unfold dotPattern
      rw [normalize_map_lower]
      have e1 : isSubstr (codes "inv.no") (normalize_column_name s) = false := by
        cases he : isSubstr (codes "inv.no") (normalize_column_name s) with
        | false => rfl
        | true => exact absurd (substr_mem (by decide) he) h46
      have e2 : isSubstr (codes "custom payment ref.") (normalize_column_name s) = false := by
        cases he : isSubstr (codes "custom payment ref.") (normalize_column_name s) with
        | false => rfl
        | true => exact absurd (substr_mem (by decide) he) h46
      have e3 : isSubstr (codes "custompaymentref.") (normalize_column_name s) = false := by
        cases he : isSubstr (codes "custompaymentref.") (normalize_column_name s) with
        | false => rfl
        | true => exact absurd (substr_mem (by decide) he) h46
      simp [e1, e2, e3]
    have hfw : (normalize_column_name s).filter isWordChar = normalize_column_name s :=
      List.filter_eq_self.mpr hword
    rw [normalize_column_name_eq (normalize_column_name s), hdo]
    simp only [Bool.false_eq_true, if_false]
    rw [hnfo, hns, hfw, normalize_map_lower]
  | true =>
    have hdo := dotPattern_normalize h308 hd
    have hfk : (normalize_column_name s).filter
        (fun c => isWordChar c || decide (c = 46)) = normalize_column_name s :=
      List.filter_eq_self.mpr (fun c hc => normalize_keep hc)
    rw [normalize_column_name_eq (normalize_column_name s), hdo]
    simp only [if_true]
    rw [hnfo, hns, hfk, normalize_map_lower]

theorem parseHMS_bounds {u : Str} {h m s : Nat} (hp : parseHMS u = some (h, m, s)) :
    h ≤ 99 ∧ m ≤ 99 ∧ s ≤ 99 := by
  unfold parseHMS at hp
  repeat' split at hp
  all_goals simp_all
  all_goals omega

theorem parseHM_bounds {u : Str} {h m : Nat} (hp : parseHM u = some (h, m)) :
    h ≤ 99 ∧ m ≤ 99 := by
  unfold parseHM at hp
  repeat' split at hp
  all_goals simp_all
  all_goals omega

theorem duration_shape (T : Nat) :
    ∃ h m s, (if T > 0 then renderHMS (T / 3600) (T % 3600 / 60) (T % 60)
      else codes "00:00:00") = renderHMS h m s ∧ m ≤ 99 ∧ s ≤ 99 := by
  split_ifs
  · exact ⟨T / 3600, T % 3600 / 60, T % 60, rfl, by omega, by omega⟩
  · exact ⟨0, 0, 0, by decide, by omega, by omega⟩

theorem format_shape (t : Option Str) :
    ∃ h m s, format_time_string_for_storage t = renderHMS h m s ∧ m ≤ 99 ∧ s ≤ 99 := by
  cases t with
  | none => exact ⟨0, 0, 0, by decide, by omega, by omega⟩
  | some raw =>
    simp only [format_time_string_for_storage]
    cases hp : parseHMS (stripLower raw) with
    | some v =>
      obtain ⟨h, m, s⟩ := v
      have hb := parseHMS_bounds hp
      exact ⟨h, m, s, rfl, hb.2.1, hb.2.2⟩
    | none =>
      cases hq : parseHM (stripLower raw) with
      | some v =>
        obtain ⟨h, m⟩ := v
        have hb := parseHM_bounds hq
        exact ⟨h, m, 0, rfl, hb.2, by omega⟩
      | none =>
        exact duration_shape _

theorem render_mem {h m s c : Nat} (hh : h ≤ 99) (hm : m ≤ 99) (hs : s ≤ 99)
    (hc : c ∈ renderHMS h m s) : 48 ≤ c ∧ c ≤ 58 := by
  unfold renderHMS pad2 at hc
  rw [if_pos (by omega), if_pos (by omega), if_pos (by omega)] at hc
  simp only [List.cons_append, List.nil_append, List.mem_cons, List.not_mem_nil,
    or_false] at hc
  omega

theorem stripLower_render {h m s : Nat} (hh : h ≤ 99) (hm : m ≤ 99) (hs : s ≤ 99) :
    stripLower (renderHMS h m s) = renderHMS h m s := by
  apply stripLower_eq_self
  intro c hc
  have hb := render_mem hh hm hs hc
  constructor
  · simp only [isSpaceC, decide_eq_false_iff_not]
    omega
  · unfold toLowerN
    rw [if_neg (by omega)]

theorem parseHMS_render {h m s : Nat} (hh : h ≤ 99) (hm : m ≤ 99) (hs : s ≤ 99) :
    parseHMS (renderHMS h m s) = some (h, m, s) := by
  unfold renderHMS pad2
  rw [if_pos (by omega), if_pos (by omega), if_pos (by omega)]
  simp only [List.cons_append, List.nil_append]
  simp only [parseHMS]
  rw [if_pos (show 48 ≤ 48 + h / 10 ∧ 48 + h / 10 ≤ 57 by omega)]
  rw [if_pos (show 48 ≤ 48 + h % 10 ∧ 48 + h % 10 ≤ 57 by omega)]
  rw [if_pos (show True ∧ 48 ≤ 48 + m / 10 ∧ 48 + m / 10 ≤ 57 ∧
      48 ≤ 48 + m % 10 ∧ 48 + m % 10 ≤ 57 ∧ True ∧ 48 ≤ 48 + s / 10 ∧
      48 + s / 10 ≤ 57 ∧ 48 ≤ 48 + s % 10 ∧ 48 + s % 10 ≤ 57 from
    ⟨trivial, by omega, by omega, by omega, by omega, trivial, by omega, by omega,
      by omega, by omega⟩)]
  have e1 : 10 * (48 + h / 10 - 48) + (48 + h % 10 - 48) = h := by omega
  have e2 : 10 * (48 + m / 10 - 48) + (48 + m % 10 - 48) = m := by omega
  have e3 : 10 * (48 + s / 10 - 48) + (48 + s % 10 - 48) = s := by omega
  rw [e1, e2, e3]

/-! ## Claim theorems -/

/-- Claim C2 counterexample: `format_time_string_for_storage` is not
idempotent on every string.  `"100 hour"` renders as `"100:00:00"` (the
hour field is not clamped to two digits), and re-parsing `"100:00:00"`
matches none of the recognized shapes (`\d{1,2}` cannot read a three-digit
hour and there are no duration words), so the second pass collapses to
`"00:00:00"`. -/
theorem c2_counterexample_100_hour :
    format_time_string_for_storage
        (some (format_time_string_for_storage (some (codes "100 hour")))) ≠
      format_time_string_for_storage (some (codes "100 hour")) := by decide

/-- Claim C2 (amended): `format_time_string_for_storage` is idempotent on
every input whose output carries a two-digit hour field — equivalently,
whenever the output has the shape `HH:MM:SS` with `h ≤ 99` (every output is
`renderHMS h m s` with `m, s ≤ 99`); in particular re-parsing any such
produced `HH:MM:SS` string returns that string itself. -/
theorem c2_amended_idempotent_two_digit_hour (t : Option Str) (h m s : Nat)
    (hh : h ≤ 99) (hm : m ≤ 99) (hs : s ≤ 99)
    (he : format_time_string_for_storage t = renderHMS h m s) :
    format_time_string_for_storage (some (format_time_string_for_storage t)) =
      format_time_string_for_storage t := by
  rw [he]
  simp only [format_time_string_for_storage]
  rw [stripLower_render hh hm hs, parseHMS_render hh hm hs]

theorem c2_witness :
    format_time_string_for_storage (some (codes "14:05:30")) = renderHMS 14 5 30 ∧
    format_time_string_for_storage
        (some (format_time_string_for_storage (some (codes "14:05:30")))) =
      format_time_string_for_storage (some (codes "14:05:30")) :=
  ⟨by decide, c2_amended_idempotent_two_digit_hour (some (codes "14:05:30")) 14 5 30
    (by omega) (by omega) (by omega) (by decide)⟩

/-- Claim C3 counterexample: `normalize_column_name` does not strip all
non-alphanumeric characters — Python's `\w` class keeps the underscore, so
`"a_b"` normalizes to `"a_b"`, while the claimed contract (strip every
non-alphanumeric, dot aside) would produce `"ab"`. -/
theorem c3_counterexample_underscore :
    normalize_column_name (codes "a_b") ≠ normalize_column_name_claimC3 (codes "a_b") ∧
    normalize_column_name (codes "a_b") = codes "a_b" ∧
    normalize_column_name_claimC3 (codes "a_b") = codes "ab" := by decide

/-- Claim C3 (amended): `normalize_column_name` produces the canonical key
by (a) Unicode normalization, (b) stripping all whitespace, (c) stripping
all characters that are neither word characters (alphanumerics or the
underscore) nor — when the header matches an invoice-number or
custom-payment-reference pattern — the dot, and (d) lowercasing. -/
theorem c3_amended_normalizer_contract (raw : Str) :
    normalize_column_name raw = normalize_column_name_specWord raw := by
  rw [normalize_column_name_eq]
  unfold normalize_column_name_specWord
  cases hd : dotPattern raw with
  | true => simp [hd]
  | false => simp [hd]

/-- Claim C4: `insert_data_from_df` commits exactly once.  If any exception
is raised while reading/transforming (`transformOk = false`) or while
executing/committing the bulk insert (`sqliteOk = false`), the call returns
failure and the stored table is exactly what it was — the connection is
closed without commit, so nothing is partially committed.  On success it
returns true and the table grows by precisely the transformed rows of this
one call. -/
theorem c4_single_transaction_rollback (generic : Str → Option DateD)
    (tOk sOk : Bool) (df : Df) (mapping : List (Str × Str)) (db : List (List Val)) :
    ((insert_data_from_df generic tOk sOk df mapping db).2 = false →
      (insert_data_from_df generic tOk sOk df mapping db).1 = db) ∧
    ((insert_data_from_df generic tOk sOk df mapping db).2 = true →
      (insert_data_from_df generic tOk sOk df mapping db).1 =
        db ++ transformedRows generic df mapping) := by
  unfold insert_data_from_df
  cases tOk <;> cases sOk <;> simp

theorem c4_witness :
    (insert_data_from_df (fun _ => none) true false bills_df_missing_channel
        BILLS_COLUMN_MAPPING []).2 = false ∧
    (insert_data_from_df (fun _ => none) true false bills_df_missing_channel
        BILLS_COLUMN_MAPPING []).1 = [] :=
  ⟨rfl, (c4_single_transaction_rollback (fun _ => none) true false
      bills_df_missing_channel BILLS_COLUMN_MAPPING []).1 rfl⟩

/-- Claim C5: date repair tries `%d/%m/%Y`, then `%Y-%m-%d`, then
`%m/%d/%Y`, in that order (so `"02/03/2024"` reads as March 2nd), falls
back to the generic best-effort parse only after all three fail, renders in
ISO form — `"31/01/2024"` and `"2024-01-31"` both normalize to
`"2024-01-31"` — and emits the empty string (not null) on total failure and
on null input. -/
theorem c5_date_fallback_order (generic : Str → Option DateD) :
    parse_date_robust_and_format generic (some (codes "31/01/2024")) = codes "2024-01-31" ∧
    parse_date_robust_and_format generic (some (codes "2024-01-31")) = codes "2024-01-31" ∧
    parse_date_robust_and_format generic (some (codes "02/03/2024")) = codes "2024-03-02" ∧
    parse_date_robust_and_format generic none = codes "" ∧
    (generic (codes "gibberish") = none →
      parse_date_robust_and_format generic (some (codes "gibberish")) = codes "") := by
  refine ⟨rfl, rfl, rfl, rfl, ?_⟩
  intro hg
  show (match generic (codes "gibberish") with
    | some dt => renderDate dt
    | none => []) = codes ""
  rw [hg]
  rfl

theorem c5_witness :
    (fun _ => (none : Option DateD)) (codes "gibberish") = none ∧
    parse_date_robust_and_format (fun _ => none) (some (codes "gibberish")) = codes "" :=
  ⟨rfl, (c5_date_fallback_order (fun _ => none)).2.2.2.2 rfl⟩

/-- Claim C6: `format_time_string_for_storage` recognizes `HH:MM:SS` first
(even when duration words follow), then `HH:MM` with seconds defaulting to
0, then English duration phrases converted to seconds and re-rendered;
`"1 hour 57 min"` gives `"01:57:00"`, `"51 min"` gives `"00:51:00"`,
`"14:05"` gives `"14:05:00"`, `"14:05:30"` is unchanged, and invalid or
null input gives `"00:00:00"`. -/
theorem c6_duration_round_trip :
    format_time_string_for_storage (some (codes "1 hour 57 min")) = codes "01:57:00" ∧
    format_time_string_for_storage (some (codes "51 min")) = codes "00:51:00" ∧
    format_time_string_for_storage (some (codes "14:05")) = codes "14:05:00" ∧
    format_time_string_for_storage (some (codes "14:05:30")) = codes "14:05:30" ∧
    format_time_string_for_storage (some (codes "12:30:45 min")) = codes "12:30:45" ∧
    format_time_string_for_storage (some (codes "not a time")) = codes "00:00:00" ∧
    format_time_string_for_storage none = codes "00:00:00" := by decide

/-- Claim C7 counterexample: `normalize_column_name` is not idempotent on
every header.  On `"INV.NO"` followed by the combining diaeresis U+0308,
the dot check runs on the raw text (which still contains `"inv.no"`), so
the first pass keeps the dot while NFKC composes `O`+U+0308 into `Ö`,
yielding `"inv.nö"`; the second pass no longer sees `"inv.no"` and strips
the dot, yielding `"invnö"`. -/
theorem c7_counterexample_combining_mark :
    normalize_column_name (normalize_column_name (codes "INV.NO\u0308")) ≠
      normalize_column_name (codes "INV.NO\u0308") := by decide

/-- Claim C7 (amended): `normalize_column_name` is idempotent on every
header string drawn from the ASCII-and-Thai repertoire (without SARA AM
U+0E33) on which NFKC normalization is the identity — every header this
system's bills actually carry.  Idempotence fails in general: whenever NFKC
composes a trailing base letter of the `"inv.no"` pattern with a following
combining mark (diaeresis U+0308, acute U+0301, ...), the first pass keeps
the dot on the strength of the raw text while the composed output no longer
matches, and the second pass strips the dot. -/
theorem c7_amended_idempotent_ascii_thai (s : Str) (h : ∀ c ∈ s, asciiThai c = true) :
    normalize_column_name (normalize_column_name s) = normalize_column_name s :=
  normalize_idem_of_no_comb (fun c hc => by
    have hr := h c hc
    simp only [asciiThai, decide_eq_true_eq] at hr
    simp only [isCombining, decide_eq_false_iff_not]
    omega)

theorem c7_witness :
    (∀ c ∈ codes "INV. No", asciiThai c = true) ∧
    normalize_column_name (normalize_column_name (codes "INV. No")) =
      normalize_column_name (codes "INV. No") :=
  ⟨by decide, c7_amended_idempotent_ascii_thai (codes "INV. No") (by decide)⟩

theorem count_beq_bridge (m : Str) (l : List Str) :
    l.count m = @List.count Str instBEqOfDecidableEq m l := by
  unfold List.count
  congr 1
  funext x
  by_cases hx : x = m <;> simp [hx]

/-- Claim C8: in `get_basket_data`, each receipt's transaction row is the
set of distinct menu names on that receipt after removing caller-excluded
items: a menu name is flagged in the row exactly when some line item of the
receipt carries it and it is not excluded, and it is flagged at most once
however many times the bill repeats it. -/
theorem c8_basket_membership (details : List (Str × Str)) (excl : List Str)
    (r : Str) (row : List Str) (m : Str)
    (hmem : (r, row) ∈ get_basket_data details excl) :
    (m ∈ row ↔ ∃ p, p ∈ details ∧ p.1 = r ∧ p.2 = m ∧ m ∉ excl) ∧ row.count m ≤ 1 := by
  unfold get_basket_data at hmem
  simp only [List.mem_map] at hmem
  obtain ⟨r', hr', heq⟩ := hmem
  have h1 : r' = r := congrArg Prod.fst heq
  have h2 : (((details.filter (fun p => !decide (p.2 ∈ excl))).filter
      (fun p => decide (p.1 = r'))).map Prod.snd).dedup = row := congrArg Prod.snd heq
  subst h1
  constructor
  · rw [← h2]
    simp only [List.mem_dedup, List.mem_map, List.mem_filter, Bool.not_eq_true',
      decide_eq_false_iff_not, decide_eq_true_eq]
    constructor
    · rintro ⟨p, ⟨⟨hpd, hpe⟩, hpr⟩, hpm⟩
      exact ⟨p, hpd, hpr, hpm, hpm ▸ hpe⟩
    · rintro ⟨p, hpd, hpr, hpm, hme⟩
      exact ⟨p, ⟨⟨hpd, hpm ▸ hme⟩, hpr⟩, hpm⟩
  · rw [← h2, count_beq_bridge]
    exact List.nodup_iff_count_le_one.mp (List.nodup_dedup _) m

theorem c8_witness :
    ((codes "R1", [codes "A"]) ∈
      get_basket_data [(codes "R1", codes "A"), (codes "R1", codes "A")] []) ∧
    ((codes "A" ∈ [codes "A"] ↔
        ∃ p, p ∈ [(codes "R1", codes "A"), (codes "R1", codes "A")] ∧
          p.1 = codes "R1" ∧ p.2 = codes "A" ∧ codes "A" ∉ ([] : List Str)) ∧
      ([codes "A"] : List Str).count (codes "A") ≤ 1) :=
  ⟨by decide, c8_basket_membership [(codes "R1", codes "A"), (codes "R1", codes "A")] []
    (codes "R1") [codes "A"] (codes "A") (by decide)⟩

/-- Claim C9: the dot-retention test runs on the lowercased original header
before whitespace removal, so the mapping key `"INV. No"` (dot followed by
a space) does not match the `"inv.no"` pattern and normalizes to `"invno"`
with the dot removed; and since `insert_data_from_df` normalizes expected
keys and uploaded headers with the same function, an uploaded header equal
to `"INV. No"` still resolves to the same canonical key. -/
theorem c9_inv_no_dot_not_retained :
    dotPattern (codes "INV. No") = false ∧
    normalize_column_name (codes "INV. No") = codes "invno" ∧
    (codes "INV. No", codes "inv_no") ∈ BILLS_COLUMN_MAPPING ∧
    findHeader [codes "INV. No"] (codes "INV. No") = some (codes "INV. No") := by
  refine ⟨by decide, by decide, by decide, by decide⟩

/-- Claim C10: when the (stripped, lowercased) input matches no `HH:MM:SS`
or `HH:MM` shape and no `"N hour M min"` phrase, but matches both a
minutes phrase and an hours phrase (for example `"57 min 1 hour"`), the
later hour match overwrites the minute total and the result is computed
from the hours alone, discarding the minutes. -/
theorem c10_hour_overwrites_minutes (raw : Str) (mins hrs : Nat)
    (h1 : parseHMS (stripLower raw) = none)
    (h2 : parseHM (stripLower raw) = none)
    (h3 : searchStr pHourMin (stripLower raw) = none)
    (h4 : searchStr pMin (stripLower raw) = some mins)
    (h5 : searchStr pHour (stripLower raw) = some hrs)
    (h6 : 0 < hrs) :
    format_time_string_for_storage (some raw) = renderHMS hrs 0 0 := by
  simp only [format_time_string_for_storage, h1, h2, h3, h5]
  split_ifs with hpos
  · have e1 : hrs * 3600 / 3600 = hrs := by omega
    have e2 : hrs * 3600 % 3600 / 60 = 0 := by omega
    have e3 : hrs * 3600 % 60 = 0 := by omega
    rw [e1, e2, e3]
  · exact absurd (by omega : hrs * 3600 > 0) hpos

theorem c10_witness :
    parseHMS (stripLower (codes "57 min 1 hour")) = none ∧
    parseHM (stripLower (codes "57 min 1 hour")) = none ∧
    searchStr pHourMin (stripLower (codes "57 min 1 hour")) = none ∧
    searchStr pMin (stripLower (codes "57 min 1 hour")) = some 57 ∧
    searchStr pHour (stripLower (codes "57 min 1 hour")) = some 1 ∧
    format_time_string_for_storage (some (codes "57 min 1 hour")) = renderHMS 1 0 0 :=
  ⟨by decide, by decide, by decide, by decide, by decide,
    c10_hour_overwrites_minutes (codes "57 min 1 hour") 57 1 (by decide) (by decide)
      (by decide) (by decide) (by decide) (by omega)⟩
